import Mathlib

/- Shallow embedding of the news-analysis pipeline of repository zyeper/v2
   (files src/processing.py and src/api_clients.py).

   Modelling conventions:
   * Python strings are `String`; slicing s[:n], len, '\n'-splitting and
     str.strip() are modelled on the underlying `List Char` (Python code
     points); whitespace is `Char.isWhitespace`, the fragment of Python's
     default strip set that the pipeline's strings use.
   * Python float(...) string acceptance is modelled in full by pyFloatVal
     (optional sign; the words inf, infinity, nan in any case mix; decimal
     literals with optional fraction, exponent and single underscores
     between digits), valued in PyFloatVal: an exact rational, a signed
     infinity, or NaN.  The Rat-valued pipeline then uses the finite
     projection pyFloatCore, which scores a non-finite parse like a parse
     failure (0.0); the program instead carries such a float into its
     comparisons, so no theorem below asserts a sign bound for non-digit
     oracle replies (see the C5 theorems and neg_inf_label_model_gap).
     Every finite value the pipeline compares (40, 60, 80, digit strings,
     short decimals such as 39.9) is an exact decimal, and order
     comparisons of such values against the integer thresholds agree
     between `Rat` and IEEE doubles; binary64 rounding and the
     OverflowError float("1e400") raises are idealized away.
   * Groq/LLM and network calls are oracles `String → Option String`: the
     textual content of a successful response, `none` for any failure
     (missing API key, network error, non-200 status, unreadable response).
   * time.sleep, logging and the Streamlit cache are side effects with no
     bearing on the returned values and are dropped.
   * extract_perspectives_from_articles is treated as an external collaborator
     port (spec section 6 lists extract_perspectives as a collaborator
     capability contract); no claim depends on its internals. -/

/-- Python str.strip(): drop leading and trailing whitespace. -/
def pyStripL (l : List Char) : List Char :=
  ((l.dropWhile Char.isWhitespace).reverse.dropWhile Char.isWhitespace).reverse

/-- Python str.strip() on a `String`. -/
def pyStrip (s : String) : String := String.mk (pyStripL s.data)

/-- Python slicing s[:n] by code points. -/
def strTake (s : String) (n : Nat) : String := String.mk (s.data.take n)

/-- Python text.split of a single newline character: split on every
occurrence, keeping empty pieces; the empty text yields one empty piece. -/
def splitLinesL : List Char → List (List Char)
  | [] => [[]]
  | c :: r =>
    if c = '\n' then [] :: splitLinesL r
    else
      match splitLinesL r with
      | [] => [[c]]
      | h :: t => (c :: h) :: t

/-- Python str.replace of a one-character pattern with the empty string,
written as the scan the runtime performs. -/
def replaceAllChar (c : Char) : List Char → List Char
  | [] => []
  | x :: xs => if x = c then replaceAllChar c xs else x :: replaceAllChar c xs

/-- Value of a string of decimal digits. -/
def digitsToNat (l : List Char) : Nat :=
  l.foldl (fun n c => n * 10 + (c.toNat - '0'.toNat)) 0

/-- The optional leading sign of a float literal: negativity flag and the
remaining characters. -/
def stripSign : List Char → Bool × List Char
  | [] => (false, [])
  | c :: r =>
    if c = '+' then (false, r)
    else if c = '-' then (true, r)
    else (false, c :: r)

/-- The value a Python float() call can produce from a string: a finite
value (modelled exactly as a rational; binary64 rounding and the
OverflowError on out-of-range literals are idealized away), a signed
infinity, or a NaN. -/
inductive PyFloatVal where
  | finite (q : Rat)
  | inf (neg : Bool)
  | nan
  deriving DecidableEq

/-- Case-insensitive comparison of one ASCII character against its two
cases. -/
def charCI (x lo up : Char) : Bool := x == lo || x == up

/-- The word inf, in any case mix, as float() accepts it. -/
def isInfWord (l : List Char) : Bool :=
  match l with
  | [a, b, c] => charCI a 'i' 'I' && charCI b 'n' 'N' && charCI c 'f' 'F'
  | _ => false

/-- The word infinity, in any case mix, as float() accepts it. -/
def isInfinityWord (l : List Char) : Bool :=
  match l with
  | [a, b, c, d, e, f, g, h] =>
    charCI a 'i' 'I' && charCI b 'n' 'N' && charCI c 'f' 'F' && charCI d 'i' 'I' &&
    charCI e 'n' 'N' && charCI f 'i' 'I' && charCI g 't' 'T' && charCI h 'y' 'Y'
  | _ => false

/-- The word nan, in any case mix, as float() accepts it. -/
def isNanWord (l : List Char) : Bool :=
  match l with
  | [a, b, c] => charCI a 'n' 'N' && charCI b 'a' 'A' && charCI c 'n' 'N'
  | _ => false

/-- A digit run whose head was already checked to be a digit: consumes
digits, allowing a single underscore only between two digits; an
underscore not followed by a digit makes the whole literal invalid, as in
float(). Returns the digits with underscores removed and the remainder. -/
def digitRunAux : List Char → Option (List Char × List Char)
  | [] => some ([], [])
  | [c] =>
    if c.isDigit then some ([c], [])
    else if c = '_' then none
    else some ([], [c])
  | c :: c2 :: r =>
    if c.isDigit then
      match digitRunAux (c2 :: r) with
      | some (ds, rest) => some (c :: ds, rest)
      | none => none
    else if c = '_' then
      if c2.isDigit then digitRunAux (c2 :: r)
      else none
    else some ([], c :: c2 :: r)

/-- A possibly empty digit run with embedded underscores: empty when the
first character is not a digit (a leading underscore is never consumed, as
in float()). -/
def digitRun : List Char → Option (List Char × List Char)
  | [] => some ([], [])
  | c :: r => if c.isDigit then digitRunAux (c :: r) else some ([], c :: r)

/-- The fraction part after the integer digits: consumes a dot and the
following digit run, or nothing. -/
def parseFrac : List Char → Option (List Char × List Char)
  | [] => some ([], [])
  | c :: r => if c = '.' then digitRun r else some ([], c :: r)

/-- The exact rational denoted by a sign, integer digits, fraction digits
and a signed exponent: the signed mantissa over the fraction denominator,
scaled by the power of ten of the exponent. -/
def ratOfDigits (neg : Bool) (intDs fracDs : List Char) (expNeg : Bool)
    (expDs : List Char) : Rat :=
  let mNat : Nat := digitsToNat intDs * 10 ^ fracDs.length + digitsToNat fracDs
  let m : Int := if neg then -(mNat : Int) else (mNat : Int)
  if expNeg then mkRat m (10 ^ fracDs.length * 10 ^ digitsToNat expDs)
  else mkRat (m * ((10 ^ digitsToNat expDs : Nat) : Int)) (10 ^ fracDs.length)

/-- Python float(...) on an already-stripped string: optional sign, then
the words inf, infinity or nan in any case, or a decimal literal — integer
digits, optional dot and fraction digits (at least one digit overall),
optional exponent with its own sign — with single underscores allowed only
between digits; `none` models a raised ValueError. -/
def pyFloatVal (l : List Char) : Option PyFloatVal :=
  let neg := (stripSign l).1
  let rest := (stripSign l).2
  if isInfWord rest || isInfinityWord rest then some (.inf neg)
  else if isNanWord rest then some .nan
  else
    match digitRun rest with
    | none => none
    | some (intDs, r1) =>
      match parseFrac r1 with
      | none => none
      | some (fracDs, r3) =>
        if intDs.isEmpty && fracDs.isEmpty then none
        else
          match r3 with
          | [] => some (.finite (ratOfDigits neg intDs fracDs false []))
          | c :: r4 =>
            if c = 'e' ∨ c = 'E' then
              let eneg := (stripSign r4).1
              let r5 := (stripSign r4).2
              match digitRun r5 with
              | none => none
              | some (expDs, r6) =>
                if expDs.isEmpty || !r6.isEmpty then none
                else some (.finite (ratOfDigits neg intDs fracDs eneg expDs))
            else none

/-- The finite projection of the float parse, feeding the Rat-valued
pipeline: a reply parsing to an infinity or NaN is scored like a parse
failure (0.0) by this model, whereas the program would carry the
non-finite float through its comparisons — the one place the model
idealizes the program, which is why no lower bound on credibility scores
is claimed beyond the digit-bearing case (see the C5 theorems). -/
def pyFloatCore (l : List Char) : Option Rat :=
  match pyFloatVal l with
  | some (.finite q) => some q
  | _ => none

/-- Python float(...) on a `String`, finite fragment. -/
def pyFloat? (s : String) : Option Rat := pyFloatCore s.data

/-- One entry of SerpApi news_results as run_full_pipeline reads it: the
nested source name, link, title and thumbnail, each possibly absent. -/
structure Candidate where
  source_name : Option String
  link : Option String
  title : Option String
  thumbnail : Option String
  deriving DecidableEq

/-- A credibility value as stored in an article dict: in the pipeline it is
always the string returned by rate_credibility, but get_credibility_score
also accepts an already numeric value (the isinstance branch). -/
inductive CredLabel where
  | str (s : String)
  | num (q : Rat)
  deriving DecidableEq

/-- A headline-set article dict as built in run_full_pipeline. -/
structure HeadArticle where
  source : String
  url : Option String
  title : String
  info : String
  summary : String
  credibility : CredLabel
  thumbnail : Option String
  deriving DecidableEq

/-- A perspective-pool dict as built in run_full_pipeline; note the absence
of a credibility field: no credibility call is made for pool items. -/
structure PoolItem where
  source : String
  url : Option String
  title : String
  summary : String
  deriving DecidableEq

/-- A headline article after rank_articles_by_credibility attached its
priority fields (the Python code mutates the dict in place; the mutation is
modelled as a wrapper record around the unchanged base dict). -/
structure RankedArticle where
  base : HeadArticle
  priority_rank : Nat
  credibility_numeric : Rat
  priority_label : String
  priority_color : String
  deriving DecidableEq

/-- Output record of extract_perspectives_from_articles. -/
structure Perspective where
  perspective : String
  summary : String
  interesting_fact : String
  articles : List String
  deriving DecidableEq

/-- The external collaborators of one pipeline run: the fetch_top_news
result (items, error) and the per-call oracles described in the header. -/
structure Ports where
  items : List Candidate
  fetchError : Option String
  extract : String → Option String
  summarize : String → Option String
  rateOracle : String → Option String
  synthOracle : String → Option String
  followupOracle : String → Option String
  extractPerspectives : List RankedArticle → List PoolItem → List Perspective

/-- api_clients.rate_credibility: on any failure "N/A"; otherwise the digit
characters of the stripped reply, or the whole stripped reply if it holds
no digit. -/
def rate_credibility (oracle : String → Option String) (source : String) : String :=
  match oracle source with
  | none => "N/A"
  | some content =>
    let raw := pyStrip content
    let digitsL := raw.data.filter Char.isDigit
    if digitsL.isEmpty then raw else String.mk digitsL

/-- api_clients.summarize_all_articles: none on empty input; otherwise joins
the nonempty 600-capped per-article summaries, caps at 4000, and maps the
oracle reply through strip (none on oracle failure). -/
def summarize_all_articles (oracle : String → Option String)
    (articles : List RankedArticle) : Option String :=
  if articles.isEmpty then none
  else
    let snippets := articles.filterMap (fun a =>
      let s := strTake a.base.summary 600
      if s.isEmpty then none else some s)
    let combined := strTake (String.intercalate "\n\n" snippets) 4000
    (oracle combined).map pyStrip

/-- The regex match of one-or-more digits, a dot, and any following
whitespace, anchored at the start of a line; returns the remainder of the
line after the matched part, as re.sub with empty replacement leaves it. -/
def numberedRest (l : List Char) : Option (List Char) :=
  let ds := l.takeWhile Char.isDigit
  let r := l.dropWhile Char.isDigit
  if ds.isEmpty then none
  else
    match r with
    | '.' :: r2 => some (r2.dropWhile Char.isWhitespace)
    | _ => none

/-- Python line.startswith of the bullet characters. -/
def isBulletLine (l : List Char) : Bool :=
  match l with
  | [] => false
  | c :: _ => c == '•' || c == '-' || c == '*'

/-- One iteration of the line loop in generate_followup_questions: strip the
line, skip it when empty, then the numbered, bulleted and plain-question
branches with their length guards. -/
def parseQuestionLine (raw : List Char) : Option String :=
  let line := pyStripL raw
  if line.isEmpty then none
  else
    match numberedRest line with
    | some rest =>
      let question := pyStripL rest
      if !question.isEmpty && 5 < question.length then some (String.mk question)
      else none
    | none =>
      if isBulletLine line then
        let question := pyStripL line.tail
        if !question.isEmpty && 5 < question.length then some (String.mk question)
        else none
      else if line.contains '?' && 10 < line.length then some (String.mk line)
      else none

/-- The full questions list collected from the oracle reply before
deduplication. -/
def parsedQuestions (text : String) : List String :=
  (splitLinesL text.data).filterMap parseQuestionLine

/-- The seen-set deduplication loop of generate_followup_questions. -/
def dedupLoop (seen : List String) : List String → List String
  | [] => []
  | q :: r => if q ∈ seen then dedupLoop seen r else q :: dedupLoop (q :: seen) r

/-- Duplicate removal preserving the first occurrence of each question. -/
def dedupFirst (l : List String) : List String := dedupLoop [] l

/-- The data of the prompt that varies between calls: the optional prior
conversation context and the 2000-capped summary. -/
def followupInput (context : Option String) (safe : String) : String :=
  match context with
  | none => safe
  | some c => c ++ "\n" ++ safe

/-- api_clients.generate_followup_questions: empty list for an absent or
empty summary or a failed oracle call; otherwise the parsed question lines,
deduplicated first-seen, truncated to n_questions. -/
def generate_followup_questions (oracle : String → Option String) :
    Option String → Nat → Option String → List String
  | none, _, _ => []
  | some cs, n_questions, context =>
    if cs.isEmpty then []
    else
      let safe := strTake cs 2000
      match oracle (followupInput context safe) with
      | none => []
      | some text => (dedupFirst (parsedQuestions text)).take n_questions

/-- processing.get_credibility_score: a string label has every percent sign
removed, is stripped, and is parsed as a float with 0.0 on failure; an
already numeric value is used as-is. -/
def get_credibility_score (credibility : CredLabel) : Rat :=
  match credibility with
  | .num q => q
  | .str s =>
    match pyFloatCore (pyStripL (replaceAllChar '%' s.data)) with
    | some q => q
    | none => 0

/-- The sort key used by rank_articles_by_credibility. -/
def articleScore (a : HeadArticle) : Rat := get_credibility_score a.credibility

/-- Stable descending insertion: the inserted element comes from earlier in
the input, so it goes before every element of equal key. -/
def insertDesc {α : Type _} (key : α → Rat) (x : α) : List α → List α
  | [] => [x]
  | y :: ys => if key y ≤ key x then x :: y :: ys else y :: insertDesc key x ys

/-- Python sorted(..., key, reverse) is a stable descending sort; it is
modelled by the extensionally equal stable descending insertion sort. -/
def sortDesc {α : Type _} (key : α → Rat) : List α → List α
  | [] => []
  | x :: xs => insertDesc key x (sortDesc key xs)

/-- The priority label chain of rank_articles_by_credibility. -/
def priorityLabel (score : Rat) : String :=
  if 80 ≤ score then "High Priority"
  else if 60 ≤ score then "Medium Priority"
  else if 40 ≤ score then "Low Priority"
  else "Very Low Priority"

/-- The priority color chain of rank_articles_by_credibility. -/
def priorityColor (score : Rat) : String :=
  if 80 ≤ score then "#10b981"
  else if 60 ≤ score then "#f59e0b"
  else if 40 ≤ score then "#ef4444"
  else "#6b7280"

/-- The enumerate-from-1 loop that attaches priority_rank,
credibility_numeric, priority_label and priority_color. -/
def attachRanks : Nat → List HeadArticle → List RankedArticle
  | _, [] => []
  | i, a :: rest =>
    { base := a, priority_rank := i, credibility_numeric := articleScore a,
      priority_label := priorityLabel (articleScore a),
      priority_color := priorityColor (articleScore a) } :: attachRanks (i + 1) rest

/-- processing.rank_articles_by_credibility. -/
def rank_articles_by_credibility (articles : List HeadArticle) : List RankedArticle :=
  if articles.isEmpty then []
  else attachRanks 1 (sortDesc articleScore articles)

/-- art.get of the nested source name with its "Unknown Source" default. -/
def effSource (c : Candidate) : String := c.source_name.getD "Unknown Source"

/-- The loop state of run_full_pipeline: headline set, perspective pool and
the processed_sources set, the latter as a membership list. -/
structure PipeState where
  processed : List HeadArticle
  pool : List PoolItem
  seen : List String
  deriving DecidableEq

/-- One iteration of the candidate loop of run_full_pipeline: skip an
already seen source, skip extraction or summarization failure, otherwise
append a headline article (with a credibility call) while fewer than 4 are
held, else append a pool item (no credibility call); either way record the
source as seen. -/
def processCandidate (P : Ports) (st : PipeState) (art : Candidate) : PipeState :=
  let source := effSource art
  if source ∈ st.seen then st
  else
    match art.link.bind P.extract with
    | none => st
    | some text =>
      match P.summarize text with
      | none => st
      | some summary =>
        let title := art.title.getD ""
        if st.processed.length < 4 then
          let a : HeadArticle :=
            { source := source, url := art.link, title := title, info := text,
              summary := pyStrip summary,
              credibility := .str (rate_credibility P.rateOracle source),
              thumbnail := art.thumbnail }
          { processed := st.processed ++ [a], pool := st.pool,
            seen := source :: st.seen }
        else
          let p : PoolItem :=
            { source := source, url := art.link, title := title,
              summary := pyStrip summary }
          { processed := st.processed, pool := st.pool ++ [p],
            seen := source :: st.seen }

/-- The loop of run_full_pipeline over all fetched candidates. -/
def pipelineState (P : Ports) : PipeState :=
  P.items.foldl (processCandidate P) { processed := [], pool := [], seen := [] }

/-- The 5-tuple run_full_pipeline returns. -/
structure PipelineResult where
  articles : Option (List RankedArticle)
  combined : Option String
  followups : List String
  perspectives : List Perspective
  error : Option String
  deriving DecidableEq

/-- Python truthiness of the fetch error: a present, nonempty string. -/
def errTruthy : Option String → Bool
  | none => false
  | some e => !e.isEmpty

/-- processing.run_full_pipeline. -/
def run_full_pipeline (P : Ports) (context : Option String) : PipelineResult :=
  if errTruthy P.fetchError then
    { articles := none, combined := none, followups := [], perspectives := [],
      error := P.fetchError }
  else if P.items.isEmpty then
    { articles := none, combined := none, followups := [], perspectives := [],
      error := some "No articles found." }
  else
    let st := pipelineState P
    if st.processed.isEmpty then
      { articles := none, combined := none, followups := [], perspectives := [],
        error := some "Could not process any of the fetched articles." }
    else
      let ranked := rank_articles_by_credibility st.processed
      let combined := summarize_all_articles P.synthOracle ranked
      let persps := P.extractPerspectives ranked st.pool
      let followups := generate_followup_questions P.followupOracle combined 5 context
      { articles := some ranked, combined := combined, followups := followups,
        perspectives := persps, error := none }

/-- Whether a candidate would pass extraction and summarization. -/
def candOk (P : Ports) (c : Candidate) : Bool :=
  match c.link.bind P.extract with
  | none => false
  | some text => (P.summarize text).isSome

/-- The successfully processed candidates, in arrival order: starting from
the given seen-set, keep each candidate whose source is new and that passes
extraction and summarization, marking its source seen. -/
def survivors (P : Ports) : List Candidate → List String → List Candidate
  | [], _ => []
  | c :: cs, seen =>
    if effSource c ∈ seen then survivors P cs seen
    else if candOk P c then c :: survivors P cs (effSource c :: seen)
    else survivors P cs seen

/-- The headline article the loop builds from a surviving candidate. -/
def mkHead (P : Ports) (c : Candidate) : HeadArticle :=
  let text := (c.link.bind P.extract).getD ""
  { source := effSource c, url := c.link, title := c.title.getD "", info := text,
    summary := pyStrip ((P.summarize text).getD ""),
    credibility := .str (rate_credibility P.rateOracle (effSource c)),
    thumbnail := c.thumbnail }

/-- The pool item the loop builds from a surviving candidate. -/
def mkPool (P : Ports) (c : Candidate) : PoolItem :=
  let text := (c.link.bind P.extract).getD ""
  { source := effSource c, url := c.link, title := c.title.getD "",
    summary := pyStrip ((P.summarize text).getD "") }

/-- Credibility coercion exactly as claim C7 words it: strip one TRAILING
percent sign, then surrounding whitespace, and parse; 0.0 on failure. -/
def coerceClaimC7 (s : String) : Rat :=
  let l := s.data
  let l1 := if l.getLast? = some '%' then l.dropLast else l
  (pyFloatCore (pyStripL l1)).getD 0

/-- Amended coercion following the corrected wording: remove EVERY percent
sign, strip surrounding whitespace, parse; 0.0 on failure. -/
def coerceAllPercent (s : String) : Rat :=
  (pyFloatCore (pyStripL (s.data.filter (fun c => c != '%')))).getD 0

/-- Concrete candidate from source SrcA. -/
def candA : Candidate := ⟨some "SrcA", some "uA", some "TA", none⟩

/-- Second concrete candidate from the same source SrcA. -/
def candA2 : Candidate := ⟨some "SrcA", some "uA2", some "TA2", none⟩

/-- Concrete candidate from source SrcB. -/
def candB : Candidate := ⟨some "SrcB", some "uB", some "TB", none⟩

/-- Concrete ports where every stage succeeds and the credibility oracle
replies 250, an out-of-range number. -/
def portsBase : Ports :=
  { items := [candA], fetchError := none,
    extract := fun u => some ("text:" ++ u),
    summarize := fun t => some ("sum:" ++ t),
    rateOracle := fun _ => some "250",
    synthOracle := fun _ => some "combined",
    followupOracle := fun _ => none,
    extractPerspectives := fun _ _ => [] }

/-- Ports whose search succeeds with zero candidates. -/
def portsEmpty : Ports := { portsBase with items := [] }

/-- Ports with two candidates from the same source and one from another. -/
def portsDup : Ports := { portsBase with items := [candA, candA2, candB] }

/-- Ports where combined-summary synthesis fails. -/
def portsSynthFail : Ports := { portsBase with synthOracle := fun _ => none }

/-- Ports where every candidate fails extraction. -/
def portsExtractFail : Ports := { portsBase with extract := fun _ => none }

/-- Python str.replace of one character by the empty string removes exactly
the occurrences of that character. -/
theorem replaceAllChar_eq_filter (c : Char) :
    ∀ l : List Char, replaceAllChar c l = l.filter (fun x => x != c) := by
  intro l
  induction l with
  | nil => rfl
  | cons x xs ih =>
    by_cases h : x = c
    · simp [replaceAllChar, h, ih]
    · simp [replaceAllChar, h, ih]

/-- Claim C7 (counterexample part): on the label "7%3" the code removes the
inner percent sign and parses 73.0, while the coercion the claim describes,
which strips only a trailing percent sign, fails to parse and yields 0.0. -/
theorem C7_trailing_percent_counterexample :
    get_credibility_score (.str "7%3") = 73 ∧ coerceClaimC7 "7%3" = 0 := by
  decide

/-- Claim C7 (amended): numeric coercion removes every percent sign, not
only a trailing one, strips surrounding whitespace and parses the remainder
as a floating-point number, yielding 0.0 on parse failure; a label that is
already numeric is used as-is; label "73%" coerces to 73.0, "abc" to 0.0
and "N/A" to 0.0. -/
theorem C7_percent_coercion :
    (∀ s : String, get_credibility_score (.str s) = coerceAllPercent s) ∧
    (∀ q : Rat, get_credibility_score (.num q) = q) ∧
    get_credibility_score (.str "73%") = 73 ∧
    get_credibility_score (.str "abc") = 0 ∧
    get_credibility_score (.str "N/A") = 0 := by
  refine ⟨?_, fun q => rfl, by decide, by decide, by decide⟩
  intro s
  show (match pyFloatCore (pyStripL (replaceAllChar '%' s.data)) with
    | some q => q
    | none => 0) = coerceAllPercent s
  rw [replaceAllChar_eq_filter]
  unfold coerceAllPercent
  cases pyFloatCore (pyStripL (s.data.filter (fun x => x != '%'))) <;> rfl

/-- Claim C6: the tier thresholds have inclusive lower bounds 80, 60 and 40,
and the eight boundary scores map to the tiers the claim lists (the code
spells the tiers "High Priority", "Medium Priority", "Low Priority" and
"Very Low Priority"). -/
theorem C6_tier_thresholds :
    (∀ q : Rat, 80 ≤ q → priorityLabel q = "High Priority") ∧
    (∀ q : Rat, 60 ≤ q → q < 80 → priorityLabel q = "Medium Priority") ∧
    (∀ q : Rat, 40 ≤ q → q < 60 → priorityLabel q = "Low Priority") ∧
    (∀ q : Rat, q < 40 → priorityLabel q = "Very Low Priority") ∧
    priorityLabel 0 = "Very Low Priority" ∧
    priorityLabel (39.9 : Rat) = "Very Low Priority" ∧
    priorityLabel 40 = "Low Priority" ∧
    priorityLabel (59.9 : Rat) = "Low Priority" ∧
    priorityLabel 60 = "Medium Priority" ∧
    priorityLabel (79.9 : Rat) = "Medium Priority" ∧
    priorityLabel 80 = "High Priority" ∧
    priorityLabel 100 = "High Priority" := by
  refine ⟨?_, ?_, ?_, ?_, by norm_num [priorityLabel], by norm_num [priorityLabel],
    by norm_num [priorityLabel], by norm_num [priorityLabel], by norm_num [priorityLabel],
    by norm_num [priorityLabel], by norm_num [priorityLabel], by norm_num [priorityLabel]⟩
  · intro q h
    unfold priorityLabel
    rw [if_pos h]
  · intro q h60 h80
    unfold priorityLabel
    rw [if_neg (not_le.mpr h80), if_pos h60]
  · intro q h40 h60
    unfold priorityLabel
    rw [if_neg (not_le.mpr (h60.trans (by norm_num))), if_neg (not_le.mpr h60), if_pos h40]
  · intro q h40
    unfold priorityLabel
    rw [if_neg (not_le.mpr (h40.trans (by norm_num))),
      if_neg (not_le.mpr (h40.trans (by norm_num))), if_neg (not_le.mpr h40)]

/-- Witness for C6 at the concrete score 85. -/
theorem C6_tier_thresholds_witness : priorityLabel 85 = "High Priority" :=
  C6_tier_thresholds.1 85 (by norm_num)

/-- Inserting an element permutes consing it. -/
theorem insertDesc_perm {α : Type _} (key : α → Rat) (x : α) :
    ∀ l : List α, (insertDesc key x l).Perm (x :: l) := by
  intro l
  induction l with
  | nil => exact List.Perm.refl _
  | cons y ys ih =>
    unfold insertDesc
    by_cases h : key y ≤ key x
    · rw [if_pos h]
    · rw [if_neg h]
      exact (ih.cons y).trans (List.Perm.swap x y ys)

/-- The stable descending sort permutes its input. -/
theorem sortDesc_perm {α : Type _} (key : α → Rat) :
    ∀ l : List α, (sortDesc key l).Perm l := by
  intro l
  induction l with
  | nil => exact List.Perm.refl _
  | cons x xs ih => exact (insertDesc_perm key x (sortDesc key xs)).trans (ih.cons x)

/-- Each rank-attached article carries its own score and the matching
priority label and color. -/
theorem attachRanks_fields :
    ∀ (i : Nat) (l : List HeadArticle) (r : RankedArticle), r ∈ attachRanks i l →
      r.base ∈ l ∧ r.credibility_numeric = articleScore r.base ∧
      r.priority_label = priorityLabel (articleScore r.base) ∧
      r.priority_color = priorityColor (articleScore r.base) := by
  intro i l
  induction l generalizing i with
  | nil => intro r hr; simp [attachRanks] at hr
  | cons a rest ih =>
    intro r hr
    rcases List.mem_cons.mp hr with rfl | hr2
    · exact ⟨List.mem_cons_self a rest, rfl, rfl, rfl⟩
    · obtain ⟨h1, h2, h3, h4⟩ := ih (i + 1) r hr2
      exact ⟨List.mem_cons_of_mem a h1, h2, h3, h4⟩

/-- A candidate from an already seen source leaves the loop state alone. -/
theorem processCandidate_seen (P : Ports) (st : PipeState) (c : Candidate)
    (h : effSource c ∈ st.seen) : processCandidate P st c = st := by
  simp only [processCandidate]
  rw [if_pos h]

/-- A candidate failing extraction or summarization leaves the state alone. -/
theorem processCandidate_fail (P : Ports) (st : PipeState) (c : Candidate)
    (hseen : effSource c ∉ st.seen) (hok : candOk P c = false) :
    processCandidate P st c = st := by
  simp only [processCandidate]
  rw [if_neg hseen]
  split
  · rfl
  next text hext =>
    split
    · rfl
    next summary hsum =>
      exfalso
      have hT : candOk P c = true := by
        unfold candOk
        rw [hext]
        show (P.summarize text).isSome = true
        rw [hsum]
        rfl
      rw [hT] at hok
      exact absurd hok (by simp)

/-- A surviving candidate is appended to the headline set, with a
credibility call, while fewer than 4 headline articles are held. -/
theorem processCandidate_head (P : Ports) (st : PipeState) (c : Candidate)
    (text summary : String)
    (hseen : effSource c ∉ st.seen) (hext : c.link.bind P.extract = some text)
    (hsum : P.summarize text = some summary) (hlen : st.processed.length < 4) :
    processCandidate P st c
      = { processed := st.processed ++ [mkHead P c], pool := st.pool,
          seen := effSource c :: st.seen } := by
  simp only [processCandidate, hext, hsum]
  rw [if_neg hseen, if_pos hlen]
  simp [mkHead, hext, hsum]

/-- A surviving candidate is appended to the perspective pool, without a
credibility call, once 4 headline articles are held. -/
theorem processCandidate_pool (P : Ports) (st : PipeState) (c : Candidate)
    (text summary : String)
    (hseen : effSource c ∉ st.seen) (hext : c.link.bind P.extract = some text)
    (hsum : P.summarize text = some summary) (hlen : ¬ st.processed.length < 4) :
    processCandidate P st c
      = { processed := st.processed, pool := st.pool ++ [mkPool P c],
          seen := effSource c :: st.seen } := by
  simp only [processCandidate, hext, hsum]
  rw [if_neg hseen, if_neg hlen]
  simp [mkPool, hext, hsum]

/-- Unfolding lemma: already seen source. -/
theorem survivors_cons_seen (P : Ports) (c : Candidate) (cs : List Candidate)
    (seen : List String) (h : effSource c ∈ seen) :
    survivors P (c :: cs) seen = survivors P cs seen := by
  simp [survivors, h]

/-- Unfolding lemma: fresh source that processes successfully. -/
theorem survivors_cons_ok (P : Ports) (c : Candidate) (cs : List Candidate)
    (seen : List String) (h : effSource c ∉ seen) (hok : candOk P c = true) :
    survivors P (c :: cs) seen = c :: survivors P cs (effSource c :: seen) := by
  simp [survivors, h, hok]

/-- Unfolding lemma: fresh source that fails to process. -/
theorem survivors_cons_fail (P : Ports) (c : Candidate) (cs : List Candidate)
    (seen : List String) (h : effSource c ∉ seen) (hok : candOk P c = false) :
    survivors P (c :: cs) seen = survivors P cs seen := by
  simp [survivors, h, hok]

/-- The candidate loop of run_full_pipeline, started from any state: the
headline set receives the surviving candidates up to capacity 4, in arrival
order, and the perspective pool receives the surviving candidates beyond
the capacity, in arrival order. -/
theorem foldl_processCandidate (P : Ports) :
    ∀ (cs : List Candidate) (st : PipeState),
      (cs.foldl (processCandidate P) st).processed
          = st.processed
            ++ ((survivors P cs st.seen).take (4 - st.processed.length)).map (mkHead P) ∧
      (cs.foldl (processCandidate P) st).pool
          = st.pool
            ++ ((survivors P cs st.seen).drop (4 - st.processed.length)).map (mkPool P) := by
  intro cs
  induction cs with
  | nil => intro st; simp [survivors]
  | cons c rest ih =>
    intro st
    rw [List.foldl_cons]
    by_cases hseen : effSource c ∈ st.seen
    · rw [processCandidate_seen P st c hseen, survivors_cons_seen P c rest _ hseen]
      exact ih st
    · cases hext : c.link.bind P.extract with
      | none =>
        have hok : candOk P c = false := by unfold candOk; rw [hext]
        rw [processCandidate_fail P st c hseen hok,
          survivors_cons_fail P c rest _ hseen hok]
        exact ih st
      | some text =>
        cases hsum : P.summarize text with
        | none =>
          have hok : candOk P c = false := by
            unfold candOk
            rw [hext]
            show (P.summarize text).isSome = false
            rw [hsum]
            rfl
          rw [processCandidate_fail P st c hseen hok,
            survivors_cons_fail P c rest _ hseen hok]
          exact ih st
        | some summary =>
          have hok : candOk P c = true := by
            unfold candOk
            rw [hext]
            show (P.summarize text).isSome = true
            rw [hsum]
            rfl
          rw [survivors_cons_ok P c rest _ hseen hok]
          by_cases hlen : st.processed.length < 4
          · rw [processCandidate_head P st c text summary hseen hext hsum hlen]
            obtain ⟨ihp, ihq⟩ := ih
              { processed := st.processed ++ [mkHead P c], pool := st.pool,
                seen := effSource c :: st.seen }
            simp only [List.length_append, List.length_cons, List.length_nil] at ihp ihq
            have h4 : 4 - st.processed.length = (4 - (st.processed.length + 1)) + 1 := by
              omega
            constructor
            · rw [ihp, h4, List.take_succ_cons, List.map_cons]
              simp [List.append_assoc]
            · rw [ihq, h4, List.drop_succ_cons]
          · rw [processCandidate_pool P st c text summary hseen hext hsum hlen]
            obtain ⟨ihp, ihq⟩ := ih
              { processed := st.processed, pool := st.pool ++ [mkPool P c],
                seen := effSource c :: st.seen }
            have h0 : 4 - st.processed.length = 0 := by omega
            constructor
            · rw [ihp]
              simp [h0]
            · rw [ihq]
              simp [h0, List.append_assoc]

/-- A source already recorded as seen never reappears among the survivors'
sources. -/
theorem not_mem_survivors_sources (P : Ports) :
    ∀ (cs : List Candidate) (seen : List String) (x : String),
      x ∈ seen → x ∉ (survivors P cs seen).map effSource := by
  intro cs
  induction cs with
  | nil => intro seen x hx; simp [survivors]
  | cons c rest ih =>
    intro seen x hx
    by_cases hseen : effSource c ∈ seen
    · rw [survivors_cons_seen P c rest seen hseen]
      exact ih seen x hx
    · cases hok : candOk P c
      · rw [survivors_cons_fail P c rest seen hseen hok]
        exact ih seen x hx
      · rw [survivors_cons_ok P c rest seen hseen hok]
        rw [List.map_cons, List.mem_cons]
        push_neg
        constructor
        · intro he
          exact hseen (he ▸ hx)
        · exact ih (effSource c :: seen) x (List.mem_cons_of_mem _ hx)

/-- The survivors carry pairwise distinct source names. -/
theorem survivors_sources_nodup (P : Ports) :
    ∀ (cs : List Candidate) (seen : List String),
      ((survivors P cs seen).map effSource).Nodup := by
  intro cs
  induction cs with
  | nil => intro seen; simp [survivors]
  | cons c rest ih =>
    intro seen
    by_cases hseen : effSource c ∈ seen
    · rw [survivors_cons_seen P c rest seen hseen]
      exact ih seen
    · cases hok : candOk P c
      · rw [survivors_cons_fail P c rest seen hseen hok]
        exact ih seen
      · rw [survivors_cons_ok P c rest seen hseen hok]
        rw [List.map_cons, List.nodup_cons]
        exact ⟨not_mem_survivors_sources P rest (effSource c :: seen) (effSource c)
          (List.mem_cons_self _ _), ih (effSource c :: seen)⟩

/-- In a list whose images under f are pairwise distinct, searching for the
image of a member finds exactly that member. -/
theorem find_eq_of_nodup {α : Type _} (f : α → String) :
    ∀ (l : List α), (l.map f).Nodup → ∀ x ∈ l,
      l.find? (fun y => f y == f x) = some x := by
  intro l
  induction l with
  | nil => intro _ x hx; simp at hx
  | cons y t ih =>
    intro hnd x hx
    rw [List.map_cons, List.nodup_cons] at hnd
    rcases List.mem_cons.mp hx with rfl | hx2
    · exact List.find?_cons_of_pos _ (by simp)
    · have hne : f y ≠ f x := by
        intro he
        exact hnd.1 (he ▸ List.mem_map_of_mem f hx2)
      rw [List.find?_cons_of_neg _ (by simp [hne])]
      exact ih hnd.2 x hx2

/-- The survivor carrying a given fresh source name is the first candidate
with that source name that passes extraction and summarization. -/
theorem survivors_find (P : Ports) :
    ∀ (cs : List Candidate) (seen : List String) (s : String), s ∉ seen →
      (survivors P cs seen).find? (fun c => effSource c == s)
        = cs.find? (fun c => effSource c == s && candOk P c) := by
  intro cs
  induction cs with
  | nil => intro seen s _; simp [survivors]
  | cons c rest ih =>
    intro seen s hs
    by_cases hseen : effSource c ∈ seen
    · have hne : effSource c ≠ s := by
        intro he
        exact hs (he ▸ hseen)
      rw [survivors_cons_seen P c rest seen hseen,
        List.find?_cons_of_neg _ (by simp [hne])]
      exact ih seen s hs
    · cases hok : candOk P c
      · rw [survivors_cons_fail P c rest seen hseen hok,
          List.find?_cons_of_neg _ (by simp [hok])]
        exact ih seen s hs
      · rw [survivors_cons_ok P c rest seen hseen hok]
        by_cases hcs : effSource c = s
        · rw [List.find?_cons_of_pos _ (by simp [hcs]),
            List.find?_cons_of_pos _ (by simp [hcs, hok])]
        · rw [List.find?_cons_of_neg _ (by simp [hcs]),
            List.find?_cons_of_neg _ (by simp [hcs])]
          refine ih (effSource c :: seen) s ?_
          rw [List.mem_cons]
          push_neg
          exact ⟨fun he => hcs he.symm, hs⟩

/-- Claim C1: the headline set consists of exactly the first
min(4, number of successfully processed candidates) candidates that pass
deduplication, extraction and summarization, in arrival order, and every
later successfully processed candidate lands in the perspective pool as a
PoolItem, a record without any credibility field (mkPool makes no
credibility call). -/
theorem C1_headline_cutoff (P : Ports) :
    (pipelineState P).processed
        = ((survivors P P.items []).take 4).map (mkHead P) ∧
    (pipelineState P).processed.length = min 4 (survivors P P.items []).length ∧
    (pipelineState P).pool = ((survivors P P.items []).drop 4).map (mkPool P) := by
  obtain ⟨hp, hq⟩ := foldl_processCandidate P P.items
    { processed := [], pool := [], seen := [] }
  refine ⟨?_, ?_, ?_⟩
  · simpa using hp
  · have hp2 : (pipelineState P).processed
        = ((survivors P P.items []).take 4).map (mkHead P) := by simpa using hp
    rw [hp2, List.length_map, List.length_take]
  · simpa using hq

/-- Claim C2: the produced outcomes carry pairwise distinct source names —
at most one outcome per source — and each outcome, headline or pool, is
built from the first arriving candidate of its source name that passes
extraction and summarization; any later candidate of an already-consumed
source contributes nothing. -/
theorem C2_dedup (P : Ports) :
    ((pipelineState P).processed.map HeadArticle.source
        ++ (pipelineState P).pool.map PoolItem.source).Nodup ∧
    (∀ a ∈ (pipelineState P).processed,
      ∃ c, P.items.find? (fun d => effSource d == a.source && candOk P d) = some c
        ∧ a = mkHead P c) ∧
    (∀ p ∈ (pipelineState P).pool,
      ∃ c, P.items.find? (fun d => effSource d == p.source && candOk P d) = some c
        ∧ p = mkPool P c) := by
  obtain ⟨hp, hlen, hq⟩ := C1_headline_cutoff P
  have e1 : (HeadArticle.source ∘ mkHead P) = effSource := funext fun c => rfl
  have e2 : (PoolItem.source ∘ mkPool P) = effSource := funext fun c => rfl
  refine ⟨?_, ?_, ?_⟩
  · rw [hp, hq, List.map_map, List.map_map, e1, e2, ← List.map_append,
      List.take_append_drop]
    exact survivors_sources_nodup P P.items []
  · intro a ha
    rw [hp] at ha
    obtain ⟨c, hc, rfl⟩ := List.mem_map.mp ha
    have hcS : c ∈ survivors P P.items [] := List.take_subset 4 _ hc
    refine ⟨c, ?_, rfl⟩
    have hfind := survivors_find P P.items [] (effSource c) (by simp)
    have hfind2 := find_eq_of_nodup effSource (survivors P P.items [])
      (survivors_sources_nodup P P.items []) c hcS
    have hsrc : (mkHead P c).source = effSource c := rfl
    rw [hsrc, ← hfind, hfind2]
  · intro p hpmem
    rw [hq] at hpmem
    obtain ⟨c, hc, rfl⟩ := List.mem_map.mp hpmem
    have hcS : c ∈ survivors P P.items [] := List.drop_subset 4 _ hc
    refine ⟨c, ?_, rfl⟩
    have hfind := survivors_find P P.items [] (effSource c) (by simp)
    have hfind2 := find_eq_of_nodup effSource (survivors P P.items [])
      (survivors_sources_nodup P P.items []) c hcS
    have hsrc : (mkPool P c).source = effSource c := rfl
    rw [hsrc, ← hfind, hfind2]

/-- Witness for C2: with two SrcA candidates and one SrcB candidate, the
SrcA headline article is built from the first SrcA candidate. -/
theorem C2_dedup_witness :
    ∃ c, portsDup.items.find?
        (fun d => effSource d == (mkHead portsDup candA).source && candOk portsDup d)
          = some c
      ∧ mkHead portsDup candA = mkHead portsDup c :=
  (C2_dedup portsDup).2.1 (mkHead portsDup candA) (by decide)

/-- Claim C3: run_full_pipeline produces its own error in exactly two
conditions, each with its own fixed message — an error-free search with
zero candidates yields "No articles found.", a nonempty candidate list
whose every candidate fails extraction or summarization yields
"Could not process any of the fetched articles." — the two messages
differ, both error tuples carry null articles and summary and empty
follow-up and perspective collections, and every other error a run can
return is the search port's own truthy error message passed through. -/
theorem C3_terminal_errors :
    (∀ (P : Ports) (ctx : Option String),
      errTruthy P.fetchError = false → P.items = [] →
      run_full_pipeline P ctx
        = { articles := none, combined := none, followups := [], perspectives := [],
            error := some "No articles found." }) ∧
    (∀ (P : Ports) (ctx : Option String),
      errTruthy P.fetchError = false → P.items ≠ [] →
      (pipelineState P).processed = [] →
      run_full_pipeline P ctx
        = { articles := none, combined := none, followups := [], perspectives := [],
            error := some "Could not process any of the fetched articles." }) ∧
    ("No articles found." : String)
      ≠ "Could not process any of the fetched articles." ∧
    (∀ (P : Ports) (ctx : Option String) (e : String),
      (run_full_pipeline P ctx).error = some e →
      e = "No articles found."
        ∨ e = "Could not process any of the fetched articles."
        ∨ (P.fetchError = some e ∧ e ≠ "")) := by
  refine ⟨?_, ?_, by decide, ?_⟩
  · intro P ctx herr hitems
    simp [run_full_pipeline, herr, hitems]
  · intro P ctx herr hitems hproc
    have hne : P.items.isEmpty = false := by
      cases hI : P.items with
      | nil => exact absurd hI hitems
      | cons a r => rfl
    simp [run_full_pipeline, herr, hne, hproc]
  · intro P ctx e h
    simp only [run_full_pipeline] at h
    by_cases h1 : errTruthy P.fetchError = true
    · rw [if_pos h1] at h
      have hfe : P.fetchError = some e := by simpa using h
      refine Or.inr (Or.inr ⟨hfe, ?_⟩)
      intro he
      rw [hfe, he] at h1
      exact absurd h1 (by decide)
    · rw [if_neg h1] at h
      by_cases h2 : P.items.isEmpty = true
      · rw [if_pos h2] at h
        refine Or.inl ?_
        have : some "No articles found." = some e := by simpa using h
        exact (Option.some.inj this).symm
      · rw [if_neg h2] at h
        by_cases h3 : (pipelineState P).processed.isEmpty = true
        · rw [if_pos h3] at h
          refine Or.inr (Or.inl ?_)
          have : some "Could not process any of the fetched articles." = some e := by
            simpa using h
          exact (Option.some.inj this).symm
        · rw [if_neg h3] at h
          simp at h

/-- Witness for C3: the concrete ports with an error-free empty search
result yield exactly the "No articles found." failure tuple. -/
theorem C3_terminal_errors_witness :
    run_full_pipeline portsEmpty none
      = { articles := none, combined := none, followups := [], perspectives := [],
          error := some "No articles found." } :=
  C3_terminal_errors.1 portsEmpty none rfl rfl

/-- Claim C8: when at least one article processes successfully, failure of
combined-summary synthesis is not a terminal error: the run still returns
the success tuple with a null error, a null combined summary, the ranked
articles, and an empty follow-up list (follow-up generation on an absent
summary returns the empty list). -/
theorem C8_synth_failure_nonfatal (P : Ports) (ctx : Option String)
    (herr : errTruthy P.fetchError = false) (hitems : P.items ≠ [])
    (hproc : (pipelineState P).processed ≠ [])
    (hsynth : ∀ s, P.synthOracle s = none) :
    run_full_pipeline P ctx
      = { articles := some (rank_articles_by_credibility (pipelineState P).processed),
          combined := none, followups := [],
          perspectives := P.extractPerspectives
            (rank_articles_by_credibility (pipelineState P).processed)
            (pipelineState P).pool,
          error := none } := by
  have hcomb : summarize_all_articles P.synthOracle
      (rank_articles_by_credibility (pipelineState P).processed) = none := by
    by_cases h : (rank_articles_by_credibility (pipelineState P).processed).isEmpty
    · simp [summarize_all_articles, h]
    · simp [summarize_all_articles, h, hsynth]
  have hne : P.items.isEmpty = false := by
    cases hI : P.items with
    | nil => exact absurd hI hitems
    | cons a r => rfl
  have hpne : (pipelineState P).processed.isEmpty = false := by
    cases hI : (pipelineState P).processed with
    | nil => exact absurd hI hproc
    | cons a r => rfl
  simp only [run_full_pipeline]
  rw [herr, hne, hpne]
  simp only [Bool.false_eq_true, if_false]
  rw [hcomb]
  rfl

/-- Witness for C8: the concrete ports with a failing synthesis oracle. -/
theorem C8_synth_failure_nonfatal_witness :
    run_full_pipeline portsSynthFail none
      = { articles := some (rank_articles_by_credibility
            (pipelineState portsSynthFail).processed),
          combined := none, followups := [],
          perspectives := portsSynthFail.extractPerspectives
            (rank_articles_by_credibility (pipelineState portsSynthFail).processed)
            (pipelineState portsSynthFail).pool,
          error := none } :=
  C8_synth_failure_nonfatal portsSynthFail none rfl (by decide) (by decide)
    (fun s => rfl)

/-- Helper: dropping the p-prefix of a list with no p-element changes
nothing. -/
theorem dropWhile_eq_self_of_all_not {α : Type _} (p : α → Bool) :
    ∀ l : List α, l.all (fun c => !p c) = true → l.dropWhile p = l := by
  intro l h
  cases l with
  | nil => rfl
  | cons c r =>
    rw [List.all_cons, Bool.and_eq_true] at h
    have hc : p c = false := by
      have := h.1
      cases hpc : p c
      · rfl
      · rw [hpc] at this; exact absurd this (by simp)
    simp [List.dropWhile_cons, hc]

/-- A digit character is not a sign, a percent sign or whitespace. -/
theorem isDigit_ne {c : Char} (hc : c.isDigit = true) :
    c ≠ '+' ∧ c ≠ '-' ∧ c ≠ '%' ∧ c.isWhitespace = false := by
  have hws : c.isWhitespace = false := by
    cases hw : c.isWhitespace
    · rfl
    · have h4 : ((c = ' ' ∨ c = '\t') ∨ c = '\r') ∨ c = '\n' := by
        simpa [Char.isWhitespace] using hw
      rcases h4 with ((rfl | rfl) | rfl) | rfl <;> exact absurd hc (by decide)
  refine ⟨?_, ?_, ?_, hws⟩ <;> intro he <;> rw [he] at hc <;>
    exact absurd hc (by decide)

/-- Sign stripping on a digit-headed list does nothing. -/
theorem stripSign_digit {c : Char} (r : List Char) (hc : c.isDigit = true) :
    stripSign (c :: r) = (false, c :: r) := by
  obtain ⟨h1, h2, _, _⟩ := isDigit_ne hc
  simp [stripSign, h1, h2]

/-- The empty digit string denotes zero. -/
theorem digitsToNat_nil : digitsToNat [] = 0 := rfl

/-- A list accepted as the word inf starts with an i of either case. -/
theorem isInfWord_head : ∀ l : List Char, isInfWord l = true →
    ∃ a t, l = a :: t ∧ (a = 'i' ∨ a = 'I') := by
  intro l h
  unfold isInfWord at h
  split at h
  · next a b c =>
    refine ⟨a, [b, c], rfl, ?_⟩
    simp only [Bool.and_eq_true, charCI, Bool.or_eq_true, beq_iff_eq] at h
    exact h.1.1
  · exact absurd h (by simp)

/-- A list accepted as the word infinity starts with an i of either case. -/
theorem isInfinityWord_head : ∀ l : List Char, isInfinityWord l = true →
    ∃ a t, l = a :: t ∧ (a = 'i' ∨ a = 'I') := by
  intro l h
  unfold isInfinityWord at h
  split at h
  · next a b c d e f g h8 =>
    refine ⟨a, [b, c, d, e, f, g, h8], rfl, ?_⟩
    simp only [Bool.and_eq_true, charCI, Bool.or_eq_true, beq_iff_eq] at h
    exact h.1.1.1.1.1.1.1
  · exact absurd h (by simp)

/-- A list accepted as the word nan starts with an n of either case. -/
theorem isNanWord_head : ∀ l : List Char, isNanWord l = true →
    ∃ a t, l = a :: t ∧ (a = 'n' ∨ a = 'N') := by
  intro l h
  unfold isNanWord at h
  split at h
  · next a b c =>
    refine ⟨a, [b, c], rfl, ?_⟩
    simp only [Bool.and_eq_true, charCI, Bool.or_eq_true, beq_iff_eq] at h
    exact h.1.1
  · exact absurd h (by simp)

/-- A digit-headed list is not the word inf. -/
theorem isInfWord_false_of_digit {c : Char} (r : List Char) (hc : c.isDigit = true) :
    isInfWord (c :: r) = false := by
  cases hW : isInfWord (c :: r)
  · rfl
  · exfalso
    obtain ⟨a, t, heq, ha⟩ := isInfWord_head _ hW
    injection heq with h1 _
    subst h1
    rcases ha with rfl | rfl <;> exact absurd hc (by decide)

/-- A digit-headed list is not the word infinity. -/
theorem isInfinityWord_false_of_digit {c : Char} (r : List Char)
    (hc : c.isDigit = true) : isInfinityWord (c :: r) = false := by
  cases hW : isInfinityWord (c :: r)
  · rfl
  · exfalso
    obtain ⟨a, t, heq, ha⟩ := isInfinityWord_head _ hW
    injection heq with h1 _
    subst h1
    rcases ha with rfl | rfl <;> exact absurd hc (by decide)

/-- A digit-headed list is not the word nan. -/
theorem isNanWord_false_of_digit {c : Char} (r : List Char) (hc : c.isDigit = true) :
    isNanWord (c :: r) = false := by
  cases hW : isNanWord (c :: r)
  · rfl
  · exfalso
    obtain ⟨a, t, heq, ha⟩ := isNanWord_head _ hW
    injection heq with h1 _
    subst h1
    rcases ha with rfl | rfl <;> exact absurd hc (by decide)

/-- The digit-run scanner consumes an all-digit list whole. -/
theorem digitRunAux_all_digit : ∀ l : List Char, l.all Char.isDigit = true →
    digitRunAux l = some (l, []) := by
  intro l
  induction l with
  | nil => intro _; rfl
  | cons c r ih =>
    intro h
    rw [List.all_cons, Bool.and_eq_true] at h
    cases r with
    | nil => simp [digitRunAux, h.1]
    | cons c2 r2 => simp [digitRunAux, h.1, ih h.2]

/-- A digit run on an all-digit list consumes it whole. -/
theorem digitRun_all_digit : ∀ l : List Char, l.all Char.isDigit = true →
    digitRun l = some (l, []) := by
  intro l hall
  cases l with
  | nil => rfl
  | cons c r =>
    have h := hall
    rw [List.all_cons, Bool.and_eq_true] at h
    simp [digitRun, h.1, digitRunAux_all_digit (c :: r) hall]

/-- Parsing a nonempty all-digit string yields its digit value, a finite
natural number. -/
theorem pyFloatCore_digits :
    ∀ l : List Char, l ≠ [] → l.all Char.isDigit = true →
      pyFloatCore l = some (digitsToNat l : Rat) := by
  intro l hne hall
  cases l with
  | nil => exact absurd rfl hne
  | cons c r =>
    have h := hall
    rw [List.all_cons, Bool.and_eq_true] at h
    have hsign := stripSign_digit r h.1
    have hrun := digitRun_all_digit (c :: r) hall
    simp only [pyFloatCore, pyFloatVal, hsign, isInfWord_false_of_digit r h.1,
      isInfinityWord_false_of_digit r h.1, isNanWord_false_of_digit r h.1,
      Bool.or_self, Bool.false_eq_true, if_false, hrun]
    simp [parseFrac, ratOfDigits, digitsToNat_nil, Rat.mkRat_one]

/-- Unfolding of the numeric coercion on a string label. -/
theorem get_score_str (s : String) :
    get_credibility_score (.str s)
      = (pyFloatCore (pyStripL (replaceAllChar '%' s.data))).getD 0 := by
  show (match pyFloatCore (pyStripL (replaceAllChar '%' s.data)) with
    | some q => q
    | none => 0) = _
  cases pyFloatCore (pyStripL (replaceAllChar '%' s.data)) <;> rfl

/-- When the oracle reply's stripped text contains a digit, the rating
client returns exactly the digit characters and the coercion yields their
value: a nonnegative natural number, with no clamping.  This fact is
robust to the finite projection: an all-digit string denotes a finite
float in Python as well. -/
theorem rate_score_digits (oracle : String → Option String) (src content : String)
    (ho : oracle src = some content)
    (hd : (pyStrip content).data.filter Char.isDigit ≠ []) :
    get_credibility_score (.str (rate_credibility oracle src))
      = (digitsToNat ((pyStrip content).data.filter Char.isDigit) : Rat) := by
  have hE : ((pyStrip content).data.filter Char.isDigit).isEmpty = false := by
    cases hL : (pyStrip content).data.filter Char.isDigit with
    | nil => exact absurd hL hd
    | cons a t => rfl
  have hlab : rate_credibility oracle src
      = String.mk ((pyStrip content).data.filter Char.isDigit) := by
    unfold rate_credibility
    rw [ho]
    show (if ((pyStrip content).data.filter Char.isDigit).isEmpty = true
        then pyStrip content
        else String.mk ((pyStrip content).data.filter Char.isDigit)) = _
    rw [if_neg (by simp [hE])]
  have hall : ((pyStrip content).data.filter Char.isDigit).all Char.isDigit
      = true := by
    rw [List.all_eq_true]
    intro x hx
    exact (List.mem_filter.mp hx).2
  have hrep : replaceAllChar '%' ((pyStrip content).data.filter Char.isDigit)
      = (pyStrip content).data.filter Char.isDigit := by
    rw [replaceAllChar_eq_filter]
    apply List.filter_eq_self.mpr
    intro x hx
    have hxd := (List.mem_filter.mp hx).2
    obtain ⟨_, _, h3, _⟩ := isDigit_ne hxd
    simp [h3]
  have hstrip : pyStripL ((pyStrip content).data.filter Char.isDigit)
      = (pyStrip content).data.filter Char.isDigit := by
    unfold pyStripL
    have hnw : ∀ x ∈ (pyStrip content).data.filter Char.isDigit,
        x.isWhitespace = false := by
      intro x hx
      obtain ⟨_, _, _, h4⟩ := isDigit_ne (List.mem_filter.mp hx).2
      exact h4
    have e1 : ((pyStrip content).data.filter Char.isDigit).dropWhile
        Char.isWhitespace = (pyStrip content).data.filter Char.isDigit := by
      apply dropWhile_eq_self_of_all_not
      rw [List.all_eq_true]
      intro x hx
      simp [hnw x hx]
    rw [e1]
    have e2 : ((pyStrip content).data.filter Char.isDigit).reverse.dropWhile
        Char.isWhitespace
          = ((pyStrip content).data.filter Char.isDigit).reverse := by
      apply dropWhile_eq_self_of_all_not
      rw [List.all_eq_true]
      intro x hx
      simp [hnw x (List.mem_reverse.mp hx)]
    rw [e2, List.reverse_reverse]
  rw [hlab, get_score_str]
  show (pyFloatCore (pyStripL (replaceAllChar '%'
    ((pyStrip content).data.filter Char.isDigit)))).getD 0 = _
  rw [hrep, hstrip, pyFloatCore_digits _ hd hall]
  rfl

/-- The model gap the C5 amendment accounts for: a digit-free oracle reply
"-inf" passes through rate_credibility unchanged, and the float grammar
accepts it as negative infinity — the program would carry -inf, a negative
score, into ranking, while the Rat-valued finite projection scores it 0.0.
For this reason the amended C5 asserts a nonnegative value only for
digit-bearing replies. -/
theorem neg_inf_label_model_gap :
    rate_credibility (fun _ => some "-inf") "src" = "-inf" ∧
    pyFloatVal (pyStripL (replaceAllChar '%' ("-inf" : String).data))
      = some (.inf true) ∧
    get_credibility_score (.str "-inf") = 0 := by
  decide

/-- Claim C5 (counterexample part): nothing clamps the credibility oracle's
digits, so with an oracle replying 250 for an available source signal the
pipeline emits an article whose credibility_numeric is 250, outside
[0, 100]. -/
theorem C5_out_of_range_counterexample :
    ((run_full_pipeline portsBase none).articles.getD []).map
        (fun a => a.credibility_numeric) = [250] ∧
    ((run_full_pipeline portsBase none).articles.getD []).map
        (fun a => a.base.credibility) = [.str "250"] ∧
    ¬ ((250 : Rat) ≤ 100) := by
  decide

/-- Claim C5 (amended): every article emerging from the pipeline carries
the label the credibility oracle produced for its source, and its
credibility_numeric is that label's coercion; when the source credibility
signal was unavailable (label "N/A") the numeric value is exactly 0.0 with
the Very-Low tier; and whenever the oracle's stripped reply contains a
digit, the numeric value is exactly the nonnegative natural number formed
by its digit characters — unclamped, so it may exceed 100.  A digit-free
reply that the float grammar accepts, such as "-inf", is passed through
instead (see neg_inf_label_model_gap), so no bound is asserted there. -/
theorem C5_credibility_range (P : Ports) (ctx : Option String)
    (arts : List RankedArticle) (h : (run_full_pipeline P ctx).articles = some arts)
    (a : RankedArticle) (ha : a ∈ arts) :
    a.credibility_numeric = get_credibility_score a.base.credibility ∧
    a.base.credibility = .str (rate_credibility P.rateOracle a.base.source) ∧
    (a.base.credibility = .str "N/A" →
      a.credibility_numeric = 0 ∧ a.priority_label = "Very Low Priority") ∧
    (∀ content : String, P.rateOracle a.base.source = some content →
      (pyStrip content).data.filter Char.isDigit ≠ [] →
      a.credibility_numeric
          = (digitsToNat ((pyStrip content).data.filter Char.isDigit) : Rat) ∧
      0 ≤ a.credibility_numeric) := by
  have harts : arts = rank_articles_by_credibility (pipelineState P).processed := by
    simp only [run_full_pipeline] at h
    by_cases h1 : errTruthy P.fetchError = true
    · rw [if_pos h1] at h; simp at h
    · rw [if_neg h1] at h
      by_cases h2 : P.items.isEmpty = true
      · rw [if_pos h2] at h; simp at h
      · rw [if_neg h2] at h
        by_cases h3 : (pipelineState P).processed.isEmpty = true
        · rw [if_pos h3] at h; simp at h
        · rw [if_neg h3] at h
          have h4 : some (rank_articles_by_credibility (pipelineState P).processed)
              = some arts := h
          exact (Option.some.inj h4).symm
  subst harts
  by_cases hE : (pipelineState P).processed.isEmpty
  · rw [rank_articles_by_credibility, if_pos hE] at ha
    simp at ha
  · have hr : rank_articles_by_credibility (pipelineState P).processed
        = attachRanks 1 (sortDesc articleScore (pipelineState P).processed) := by
      unfold rank_articles_by_credibility
      rw [if_neg hE]
    rw [hr] at ha
    obtain ⟨hbm, hnum, hlab, _⟩ := attachRanks_fields 1 _ a ha
    have hbase : a.base ∈ (pipelineState P).processed :=
      (sortDesc_perm articleScore _).mem_iff.mp hbm
    obtain ⟨hp, _⟩ := foldl_processCandidate P P.items
      { processed := [], pool := [], seen := [] }
    have hp2 : (pipelineState P).processed
        = ((survivors P P.items []).take 4).map (mkHead P) := by simpa using hp
    rw [hp2] at hbase
    obtain ⟨c, _, hbc⟩ := List.mem_map.mp hbase
    have hc2 : a.base.credibility
        = .str (rate_credibility P.rateOracle (effSource c)) := by
      rw [← hbc]
      rfl
    have hsrc : a.base.source = effSource c := by
      rw [← hbc]
      rfl
    refine ⟨hnum, ?_, ?_, ?_⟩
    · rw [hc2, hsrc]
    · intro hNA
      have h0 : articleScore a.base = 0 := by
        unfold articleScore
        rw [hNA]
        decide
      refine ⟨by rw [hnum, h0], ?_⟩
      rw [hlab, h0]
      norm_num [priorityLabel]
    · intro content hco hdig
      rw [hsrc] at hco
      have hscore : articleScore a.base
          = (digitsToNat ((pyStrip content).data.filter Char.isDigit) : Rat) := by
        unfold articleScore
        rw [hc2]
        exact rate_score_digits P.rateOracle (effSource c) content hco hdig
      refine ⟨by rw [hnum, hscore], ?_⟩
      rw [hnum, hscore]
      exact Nat.cast_nonneg _

/-- Witness for C5 (amended): the single ranked article of the concrete
pipeline run scores exactly the digits of the oracle reply 250, a
nonnegative value. -/
theorem C5_credibility_range_witness :
    (⟨mkHead portsBase candA, 1, 250, "High Priority", "#10b981"⟩
        : RankedArticle).credibility_numeric
      = (digitsToNat ((pyStrip "250").data.filter Char.isDigit) : Rat) ∧
    0 ≤ (⟨mkHead portsBase candA, 1, 250, "High Priority", "#10b981"⟩
        : RankedArticle).credibility_numeric :=
  (C5_credibility_range portsBase none
    (rank_articles_by_credibility (pipelineState portsBase).processed) (by decide)
    _ (by decide)).2.2.2 "250" rfl (by decide)

/-- The deduplication loop returns a sublist of its input. -/
theorem dedupLoop_sublist : ∀ (l seen : List String), List.Sublist (dedupLoop seen l) l := by
  intro l
  induction l with
  | nil => intro seen; exact List.Sublist.refl []
  | cons q r ih =>
    intro seen
    simp only [dedupLoop]
    by_cases h : q ∈ seen
    · rw [if_pos h]
      exact (ih seen).cons q
    · rw [if_neg h]
      exact (ih (q :: seen)).cons₂ q

/-- The deduplication loop never emits an already seen question. -/
theorem dedupLoop_not_mem : ∀ (l seen : List String) (x : String),
    x ∈ seen → x ∉ dedupLoop seen l := by
  intro l
  induction l with
  | nil => intro seen x _; simp [dedupLoop]
  | cons q r ih =>
    intro seen x hx
    simp only [dedupLoop]
    by_cases h : q ∈ seen
    · rw [if_pos h]
      exact ih seen x hx
    · rw [if_neg h]
      intro hmem
      rcases List.mem_cons.mp hmem with rfl | hmem2
      · exact h hx
      · exact ih (q :: seen) x (List.mem_cons_of_mem q hx) hmem2

/-- The deduplication loop emits no duplicates. -/
theorem dedupLoop_nodup : ∀ (l seen : List String), (dedupLoop seen l).Nodup := by
  intro l
  induction l with
  | nil => intro seen; exact List.nodup_nil
  | cons q r ih =>
    intro seen
    simp only [dedupLoop]
    by_cases h : q ∈ seen
    · rw [if_pos h]
      exact ih seen
    · rw [if_neg h]
      exact List.Nodup.cons
        (dedupLoop_not_mem r (q :: seen) q (List.mem_cons_self q seen)) (ih (q :: seen))

/-- generate_followup_questions either returns the empty list or the
first-seen-deduplicated parsed questions of some oracle reply, truncated to
the question count. -/
theorem gen_followup_eq (o : String → Option String) (cs : Option String) (n : Nat)
    (ctx : Option String) :
    generate_followup_questions o cs n ctx = [] ∨
    ∃ text, o (followupInput ctx (strTake ((cs.getD "")) 2000)) = some text ∧
      generate_followup_questions o cs n ctx
        = (dedupFirst (parsedQuestions text)).take n := by
  cases cs with
  | none => left; rfl
  | some s =>
    by_cases hs : s.isEmpty = true
    · left
      simp only [generate_followup_questions]
      rw [if_pos hs]
    · cases horacle : o (followupInput ctx (strTake s 2000)) with
      | none =>
        left
        simp only [generate_followup_questions]
        rw [if_neg hs, horacle]
      | some text =>
        right
        refine ⟨text, horacle, ?_⟩
        simp only [generate_followup_questions]
        rw [if_neg hs, horacle]

/-- Claim C9 (counterexample part): the questions "Why?" and "How?" are
only 4 characters long, so the length guards discard them: a generator
listing them — numbered or as bare lines — yields the empty list, not
["Why?", "How?"]. -/
theorem C9_short_questions_counterexample :
    generate_followup_questions (fun _ => some "1. Why?\n2. Why?\n3. How?")
        (some "s") 5 none = [] ∧
    generate_followup_questions (fun _ => some "Why?\nWhy?\nHow?")
        (some "s") 5 none = [] ∧
    ([] : List String) ≠ ["Why?", "How?"] := by
  decide

/-- Claim C9 (amended): follow-up generation bounds its result to the
question count (default 5) and de-duplicates case-sensitively by exact text
preserving first-seen order (the result is a duplicate-free sublist of the
parsed questions); but questions of 5 or fewer characters are discarded, so
the claim's "Why?"/"How?" example yields [] and a deduplicating example
needs longer questions. -/
theorem C9_followup_bound_dedup :
    (∀ (o : String → Option String) (cs ctx : Option String),
      (generate_followup_questions o cs 5 ctx).length ≤ 5) ∧
    (∀ (o : String → Option String) (cs : Option String) (n : Nat)
        (ctx : Option String),
      (generate_followup_questions o cs n ctx).Nodup) ∧
    (∀ (o : String → Option String) (s : String) (n : Nat) (ctx : Option String)
        (text : String),
      s.isEmpty = false →
      o (followupInput ctx (strTake s 2000)) = some text →
      List.Sublist (generate_followup_questions o (some s) n ctx)
        (parsedQuestions text)) ∧
    generate_followup_questions
        (fun _ => some "1. Why is the sky blue?\n2. Why is the sky blue?\n3. How do planes fly high?")
        (some "s") 5 none
      = ["Why is the sky blue?", "How do planes fly high?"] := by
  refine ⟨?_, ?_, ?_, by decide⟩
  · intro o cs ctx
    rcases gen_followup_eq o cs 5 ctx with h | ⟨text, _, h⟩
    · rw [h]; simp
    · rw [h, List.length_take]
      omega
  · intro o cs n ctx
    rcases gen_followup_eq o cs n ctx with h | ⟨text, _, h⟩
    · rw [h]; exact List.nodup_nil
    · rw [h]
      exact List.Nodup.sublist (List.take_sublist _ _) (dedupLoop_nodup _ _)
  · intro o s n ctx text hs ho
    have hgen : generate_followup_questions o (some s) n ctx
        = (dedupFirst (parsedQuestions text)).take n := by
      simp only [generate_followup_questions]
      rw [if_neg (by simp [hs]), ho]
    rw [hgen]
    exact (List.take_sublist _ _).trans (dedupLoop_sublist _ _)

/-- Witness for C9 (amended): sublist provenance at a concrete oracle. -/
theorem C9_followup_bound_dedup_witness :
    List.Sublist
      (generate_followup_questions (fun _ => some "1. Why is the sky blue?")
        (some "s") 5 none)
      (parsedQuestions "1. Why is the sky blue?") :=
  C9_followup_bound_dedup.2.2.1 (fun _ => some "1. Why is the sky blue?") "s" 5 none
    "1. Why is the sky blue?" (by decide) rfl

/-- Unfolding: an all-whitespace line parses to nothing. -/
theorem parseQuestionLine_empty (raw : List Char)
    (h1 : (pyStripL raw).isEmpty = true) : parseQuestionLine raw = none := by
  simp only [parseQuestionLine]
  rw [if_pos h1]

/-- Unfolding: a numbered line parses to its stripped question text iff that
text is nonempty and longer than 5 characters. -/
theorem parseQuestionLine_numbered (raw rest : List Char)
    (h1 : (pyStripL raw).isEmpty = false)
    (hnum : numberedRest (pyStripL raw) = some rest) :
    parseQuestionLine raw
      = (if (!(pyStripL rest).isEmpty && decide (5 < (pyStripL rest).length)) = true
          then some (String.mk (pyStripL rest)) else none) := by
  simp only [parseQuestionLine]
  rw [if_neg (by simp [h1]), hnum]

/-- Unfolding: a bulleted line parses to its stripped tail iff that tail is
nonempty and longer than 5 characters. -/
theorem parseQuestionLine_bullet (raw : List Char)
    (h1 : (pyStripL raw).isEmpty = false)
    (hnum : numberedRest (pyStripL raw) = none)
    (hbul : isBulletLine (pyStripL raw) = true) :
    parseQuestionLine raw
      = (if (!(pyStripL (pyStripL raw).tail).isEmpty
            && decide (5 < (pyStripL (pyStripL raw).tail).length)) = true
          then some (String.mk (pyStripL (pyStripL raw).tail)) else none) := by
  simp only [parseQuestionLine]
  rw [if_neg (by simp [h1]), hnum, if_pos hbul]

/-- Unfolding: an un-prefixed line is kept as itself iff it contains a
question mark and is longer than 10 characters. -/
theorem parseQuestionLine_plain (raw : List Char)
    (h1 : (pyStripL raw).isEmpty = false)
    (hnum : numberedRest (pyStripL raw) = none)
    (hbul : isBulletLine (pyStripL raw) = false) :
    parseQuestionLine raw
      = (if ((pyStripL raw).contains '?'
            && decide (10 < (pyStripL raw).length)) = true
          then some (String.mk (pyStripL raw)) else none) := by
  simp only [parseQuestionLine]
  rw [if_neg (by simp [h1]), hnum, if_neg (by simp [hbul])]

/-- Every question a line parse accepts is longer than 5 characters. -/
theorem parseQuestionLine_length (raw : List Char) (q : String)
    (h : parseQuestionLine raw = some q) : 5 < q.length := by
  by_cases h1 : (pyStripL raw).isEmpty = true
  · rw [parseQuestionLine_empty raw h1] at h
    exact absurd h (by simp)
  · rw [Bool.not_eq_true] at h1
    cases hnum : numberedRest (pyStripL raw) with
    | some rest =>
      rw [parseQuestionLine_numbered raw rest h1 hnum] at h
      by_cases h2 : (!(pyStripL rest).isEmpty
          && decide (5 < (pyStripL rest).length)) = true
      · rw [if_pos h2] at h
        have hq : String.mk (pyStripL rest) = q := Option.some.inj h
        rw [Bool.and_eq_true] at h2
        have h3 : 5 < (pyStripL rest).length := of_decide_eq_true h2.2
        rw [← hq]
        exact h3
      · rw [if_neg h2] at h
        exact absurd h (by simp)
    | none =>
      by_cases h2 : isBulletLine (pyStripL raw) = true
      · rw [parseQuestionLine_bullet raw h1 hnum h2] at h
        by_cases h3 : (!(pyStripL (pyStripL raw).tail).isEmpty
            && decide (5 < (pyStripL (pyStripL raw).tail).length)) = true
        · rw [if_pos h3] at h
          have hq : String.mk (pyStripL (pyStripL raw).tail) = q := Option.some.inj h
          rw [Bool.and_eq_true] at h3
          have h4 : 5 < (pyStripL (pyStripL raw).tail).length := of_decide_eq_true h3.2
          rw [← hq]
          exact h4
        · rw [if_neg h3] at h
          exact absurd h (by simp)
      · rw [Bool.not_eq_true] at h2
        rw [parseQuestionLine_plain raw h1 hnum h2] at h
        by_cases h3 : ((pyStripL raw).contains '?'
            && decide (10 < (pyStripL raw).length)) = true
        · rw [if_pos h3] at h
          have hq : String.mk (pyStripL raw) = q := Option.some.inj h
          rw [Bool.and_eq_true] at h3
          have h4 : 10 < (pyStripL raw).length := of_decide_eq_true h3.2
          rw [← hq]
          show 5 < (pyStripL raw).length
          omega
        · rw [if_neg h3] at h
          exact absurd h (by simp)

/-- Claim C10: every question generate_followup_questions returns is longer
than 5 characters — a numbered or bulleted line whose stripped question
text is 5 or fewer characters is silently discarded — and an un-prefixed
line is kept, as itself, exactly when it contains a question mark and is
longer than 10 characters. -/
theorem C10_question_length :
    (∀ (o : String → Option String) (cs : Option String) (n : Nat)
        (ctx : Option String) (q : String),
      q ∈ generate_followup_questions o cs n ctx → 5 < q.length) ∧
    (∀ (raw : List Char) (q : String), parseQuestionLine raw = some q →
      5 < q.length) ∧
    (∀ raw : List Char,
      pyStripL raw ≠ [] → numberedRest (pyStripL raw) = none →
      isBulletLine (pyStripL raw) = false →
      (parseQuestionLine raw = some (String.mk (pyStripL raw))
        ↔ ((pyStripL raw).contains '?' = true ∧ 10 < (pyStripL raw).length))) := by
  refine ⟨?_, parseQuestionLine_length, ?_⟩
  · intro o cs n ctx q hq
    rcases gen_followup_eq o cs n ctx with h | ⟨text, _, h⟩
    · rw [h] at hq
      exact absurd hq (by simp)
    · rw [h] at hq
      have hq2 : q ∈ dedupFirst (parsedQuestions text) :=
        (List.take_sublist _ _).subset hq
      have hq3 : q ∈ parsedQuestions text := (dedupLoop_sublist _ _).subset hq2
      obtain ⟨raw, _, hparse⟩ := List.mem_filterMap.mp hq3
      exact parseQuestionLine_length raw q hparse
  · intro raw hne hnum hbul
    have h1 : (pyStripL raw).isEmpty = false := by
      cases hL : pyStripL raw with
      | nil => exact absurd hL hne
      | cons a r => rfl
    rw [parseQuestionLine_plain raw h1 hnum hbul]
    constructor
    · intro h
      by_cases h3 : ((pyStripL raw).contains '?'
          && decide (10 < (pyStripL raw).length)) = true
      · rw [Bool.and_eq_true] at h3
        exact ⟨h3.1, of_decide_eq_true h3.2⟩
      · rw [if_neg h3] at h
        exact absurd h (by simp)
    · intro hc
      rw [if_pos (by rw [Bool.and_eq_true]; exact ⟨hc.1, decide_eq_true hc.2⟩)]

/-- Witness for C10 at a concrete numbered question. -/
theorem C10_question_length_witness :
    5 < ("Why is the sky blue?" : String).length :=
  C10_question_length.1 (fun _ => some "1. Why is the sky blue?") (some "s") 5 none
    "Why is the sky blue?" (by decide)
